import Mathlib

/-!
# Verification of the ACE-Step 1.5 serverless handler (`handler.py`)

A shallow embedding, in Lean 4, of the job-lifecycle and audio
post-processing pipeline of `handler.py`:

* audio samples are embedded as rationals (`ℚ`), PCM samples as integers;
  16-bit integer conversion (`astype(np.int16)`) is truncation toward zero
  followed by wrap-around into the two's-complement range of `Int16`, the
  behaviour of NumPy's C-style cast on the deployment platform;
* the pipeline singleton (`init_pipeline`) is explicit state passing over
  a `PState` record holding the global `pipeline` slot together with
  construction counters that observe construction side effects;
* the backend (`pipe(...)`) is an arbitrary function parameter returning
  either a raised exception or a raw result; the torch global RNG is an
  explicit integer state threaded through the handler, with
  `torch.manual_seed` replacing it;
* the WAV + base64 encoder is abstracted as an opaque deterministic,
  injective, total encoding of the PCM buffer (no claim inspects the
  container bytes).

Definitions mirror the Python source; `specNormalize` and `specAdapt`
are the only two definitions taken from the specification text instead,
for comparison with the code.
-/

set_option autoImplicit false

namespace ACEStep

/-! ## Audio post-processing (handler.py lines 130-141) -/

/-- Truncation toward zero of a rational, the rounding NumPy's
float-to-integer `astype` performs. -/
def truncQ (q : ℚ) : ℤ :=
  if 0 ≤ q then ⌊q⌋ else -⌊-q⌋

/-- Wrap an integer into the `Int16` range `[-32768, 32767]`
(two's-complement wrap-around of `astype(np.int16)`). -/
def wrap16 (n : ℤ) : ℤ :=
  (n + 32768) % 65536 - 32768

/-- One sample of `(audio_np * 32767).astype(np.int16)` (line 139). -/
def quantizeSample (x : ℚ) : ℤ :=
  wrap16 (truncQ (x * 32767))

/-- The whole post-processing step of the handler between the canonical
float buffer and the 16-bit PCM buffer handed to `wavfile.write`: the
source contains exactly the multiply-and-cast of line 139, nothing else. -/
def postProcess (buf : List ℚ) : List ℤ :=
  buf.map quantizeSample

/-- Maximum of a buffer (`0` for the empty buffer). Used only by the
spec-side normalization model. -/
def listMax : List ℚ → ℚ
  | [] => 0
  | x :: xs => max x (listMax xs)

/-- Minimum of a buffer (`0` for the empty buffer). Used only by the
spec-side normalization model. -/
def listMin : List ℚ → ℚ
  | [] => 0
  | x :: xs => min x (listMin xs)

/-- The normalization step as the specification describes it (not present
in the source): if any sample has magnitude greater than `1`, divide every
sample by the larger of `abs max` and `abs min`. Written from the spec's
words for comparison with `postProcess`. -/
def specNormalize (buf : List ℚ) : List ℚ :=
  let mx := listMax buf
  let mn := listMin buf
  if 1 < mx ∨ mn < -1 then buf.map (fun x => x / max |mx| |mn|) else buf

/-! ## Raw generation results and the invocation adapter
(handler.py lines 125-135) -/

/-- A backend return value, modelled with all the capabilities the spec's
`RawGenerationResult` variants mention: an optional `audio` attribute, an
optional mapping key `audio`, an optional tensor-style `numpy()`
conversion, and the interpretation of the raw value itself as a
waveform. -/
structure RawResult where
  numpyFn : Option (List ℚ)
  audioAttr : Option (List ℚ)
  audioKey : Option (List ℚ)
  rawValue : List ℚ
  deriving DecidableEq, Repr

/-- The adapter the code actually implements (lines 132-135):
`audio.numpy()` when the result has a `numpy` attribute, the raw result
itself otherwise. -/
def codeAdapt (r : RawResult) : List ℚ :=
  match r.numpyFn with
  | some buf => buf
  | none => r.rawValue

/-- The adapter as the specification describes it: first an `audio`
attribute, then a mapping key `audio`, then the raw value. Written from
the spec's words for comparison with `codeAdapt`. -/
def specAdapt (r : RawResult) : List ℚ :=
  match r.audioAttr with
  | some buf => buf
  | none =>
    match r.audioKey with
    | some buf => buf
    | none => r.rawValue

/-! ## Parameter resolution (handler.py lines 90-104) -/

/-- The fields of the inbound job mapping the handler reads; a `none`
field is absent from the mapping and takes the documented default via
`.get`. -/
structure JobInput where
  tags : Option String
  lyrics : Option String
  duration : Option ℤ
  inference_steps : Option ℤ
  guidance_scale : Option ℤ
  seed : Option ℤ
  deriving DecidableEq, Repr

/-- The parameters the handler derives from the job input
(lines 95-103), including the generation prompt
`f"{tags}\n\n{lyrics}" if tags else lyrics`. -/
structure Resolved where
  tags : String
  lyrics : String
  prompt : String
  duration : ℤ
  inference_steps : ℤ
  guidance_scale : ℤ
  seed : Option ℤ
  deriving DecidableEq, Repr

/-- Parameter extraction and prompt construction of the handler. -/
def resolve (inp : JobInput) : Resolved :=
  let tags := inp.tags.getD ""
  let lyrics := inp.lyrics.getD ""
  { tags := tags
    lyrics := lyrics
    prompt := if tags = "" then lyrics else tags ++ "\n\n" ++ lyrics
    duration := inp.duration.getD 180
    inference_steps := inp.inference_steps.getD 8
    guidance_scale := inp.guidance_scale.getD 15
    seed := inp.seed }

/-! ## Pipeline lifecycle (handler.py lines 38-67) -/

/-- Outcome of one construction strategy (one import path plus the
`ACEStepPipeline()` constructor): the strategy block raises an
`ImportError`, raises some other exception, or returns a handle. -/
inductive StratOutcome where
  | importError (msg : String)
  | initError (msg : String)
  | ok
  deriving DecidableEq, Repr

/-- The import environment: what each of the two ordered construction
strategies of `init_pipeline` would do if attempted
(`acestep.pipeline` first, `acestep.acestep_v15_pipeline` second). -/
structure Env where
  primary : StratOutcome
  alternate : StratOutcome
  deriving DecidableEq, Repr

/-- Process-wide state of the module: the global `pipeline` slot, plus
counters of how many times each strategy's constructor ran to completion
(these observe construction side effects; a handle is identified by the
value of the total counter at its construction, so distinct constructions
yield distinct handles). -/
structure PState where
  slot : Option ℕ
  primaryBuilds : ℕ
  altBuilds : ℕ
  deriving DecidableEq, Repr

/-- Total number of successful constructions so far; also the fresh
identity for the next constructed handle. -/
def PState.totalBuilds (st : PState) : ℕ :=
  st.primaryBuilds + st.altBuilds

/-- `init_pipeline()` (lines 40-67): return the cached handle when the
global slot is set; otherwise try the primary import path, falling back
to the alternate path only on `ImportError`, re-raising any failure that
remains. `Except.error` is an exception propagating out of the call. -/
def init_pipeline (env : Env) (st : PState) : Except String ℕ × PState :=
  match st.slot with
  | some h => (.ok h, st)
  | none =>
    match env.primary with
    | .ok =>
      let h := st.totalBuilds
      (.ok h, { st with slot := some h, primaryBuilds := st.primaryBuilds + 1 })
    | .initError msg => (.error msg, st)
    | .importError _ =>
      match env.alternate with
      | .ok =>
        let h := st.totalBuilds
        (.ok h, { st with slot := some h, altBuilds := st.altBuilds + 1 })
      | .importError msg2 => (.error msg2, st)
      | .initError msg2 => (.error msg2, st)

/-- `init_pipeline` called `n` times in sequence, collecting every
returned value and the final state. -/
def initCalls (env : Env) : ℕ → PState → List (Except String ℕ) × PState
  | 0, st => ([], st)
  | n + 1, st =>
    let (r, st1) := init_pipeline env st
    let (rs, st2) := initCalls env n st1
    (r :: rs, st2)

/-- The environments under which some construction strategy resolves and
constructs a handle. -/
def envConstructs : Env → Prop
  | ⟨.ok, _⟩ => True
  | ⟨.importError _, .ok⟩ => True
  | ⟨.importError _, .importError _⟩ => False
  | ⟨.importError _, .initError _⟩ => False
  | ⟨.initError _, _⟩ => False

instance (env : Env) : Decidable (envConstructs env) := by
  unfold envConstructs
  cases env with
  | mk p a => cases p <;> cases a <;> simp <;> infer_instance

/-! ## The handler (handler.py lines 69-159) -/

/-- The call the handler makes on the pipeline handle (lines 118-123). -/
structure Invocation where
  prompt : String
  duration : ℤ
  num_inference_steps : ℤ
  guidance_scale : ℤ
  deriving DecidableEq, Repr

/-- What one backend call does: raise an exception or return a raw
result. -/
inductive PipeResult where
  | raises (msg : String)
  | returns (r : RawResult)
  deriving DecidableEq, Repr

/-- `torch.manual_seed`: replace the global RNG state with the seed. -/
def manual_seed (s : ℤ) (_ : ℤ) : ℤ := s

/-- Opaque stand-in for `wavfile.write` into a buffer followed by
`base64.b64encode(...).decode("utf-8")`: a deterministic, injective,
total encoding of the sample rate and PCM buffer as text. No claim
inspects the container bytes, only that the same PCM gives the same
text. -/
def encodeWavBase64 (sampleRate : ℤ) (pcm : List ℤ) : String :=
  toString sampleRate ++ ";" ++ toString pcm

/-- Success shape of the job response (lines 149-154). -/
structure SuccessResponse where
  audio_base64 : String
  duration : ℤ
  filename : String
  sample_rate : ℤ
  deriving DecidableEq, Repr

/-- A structured job response: the success shape, or the
`{error: message}` failure shape the specification describes. -/
inductive JobResponse where
  | success (resp : SuccessResponse)
  | failure (error : String)
  deriving DecidableEq, Repr

/-- How one handler call ends: it returns a structured response, or an
exception propagates out of it to the dispatch runtime. -/
inductive HandlerOutcome where
  | returns (resp : JobResponse)
  | raises (msg : String)
  deriving DecidableEq, Repr

/-- Everything observable about one handler call: its outcome, the
module state and torch RNG state it leaves behind, and — when the
backend was invoked — the invocation made and the RNG state in force at
that moment. -/
structure HandlerRun where
  outcome : HandlerOutcome
  state : PState
  rngAtInvocation : Option ℤ
  invocation : Option Invocation
  rngFinal : ℤ
  deriving DecidableEq, Repr

/-- The `handler` function (lines 69-159). The backend `pipe` receives
the RNG state and the invocation and returns its result together with
the RNG state it leaves behind. Every exception inside the `try` block
is caught by `except Exception as e` at lines 156-159, logged, and then
re-raised (`raise e`): the model therefore maps each failing step to
`HandlerOutcome.raises`. -/
def handler (env : Env) (pipe : ℤ → Invocation → PipeResult × ℤ)
    (jobId : String) (inp : JobInput) (st : PState) (rng : ℤ) : HandlerRun :=
  let p := resolve inp
  match init_pipeline env st with
  | (.error msg, st1) =>
    { outcome := .raises msg, state := st1, rngAtInvocation := none
      invocation := none, rngFinal := rng }
  | (.ok _, st1) =>
    let rng1 := match p.seed with
      | some s => manual_seed s rng
      | none => rng
    let inv : Invocation :=
      { prompt := p.prompt, duration := p.duration
        num_inference_steps := p.inference_steps
        guidance_scale := p.guidance_scale }
    match pipe rng1 inv with
    | (.raises msg, rng2) =>
      { outcome := .raises msg, state := st1, rngAtInvocation := some rng1
        invocation := some inv, rngFinal := rng2 }
    | (.returns raw, rng2) =>
      let pcm := postProcess (codeAdapt raw)
      { outcome := .returns (.success
          { audio_base64 := encodeWavBase64 44100 pcm
            duration := p.duration
            filename := jobId ++ ".wav"
            sample_rate := 44100 })
        state := st1, rngAtInvocation := some rng1
        invocation := some inv, rngFinal := rng2 }

/-- A sequence of jobs handled by the same worker process: module state
and RNG state thread from each job into the next. -/
def runJobs (env : Env) (pipe : ℤ → Invocation → PipeResult × ℤ) :
    PState → ℤ → List (String × JobInput) → List HandlerRun
  | _, _, [] => []
  | st, rng, (jobId, inp) :: rest =>
    let run := handler env pipe jobId inp st rng
    run :: runJobs env pipe run.state run.rngFinal rest

/-- The fresh module state at process start: `pipeline = None`, no
construction has happened. -/
def initialState : PState :=
  { slot := none, primaryBuilds := 0, altBuilds := 0 }

/-! ## Helper lemmas on truncation, wrapping and buffer extrema -/

theorem truncQ_eval_nonneg (q : ℚ) (z : ℤ) (hq : 0 ≤ q)
    (h1 : (z : ℚ) ≤ q) (h2 : q < (z : ℚ) + 1) : truncQ q = z := by
  unfold truncQ
  rw [if_pos hq]
  exact Int.floor_eq_iff.mpr ⟨h1, h2⟩

theorem truncQ_eval_neg (q : ℚ) (z : ℤ) (hq : q < 0)
    (h1 : (z : ℚ) - 1 < q) (h2 : q ≤ (z : ℚ)) : truncQ q = z := by
  unfold truncQ
  rw [if_neg (not_le.mpr hq)]
  have hfl : ⌊-q⌋ = -z := by
    refine Int.floor_eq_iff.mpr ⟨?_, ?_⟩
    · push_cast
      linarith
    · push_cast
      linarith
  omega

theorem truncQ_le (q : ℚ) (c : ℤ) (hc : 0 ≤ c) (h : q ≤ (c : ℚ)) :
    truncQ q ≤ c := by
  unfold truncQ
  split
  · calc ⌊q⌋ ≤ ⌊(c : ℚ)⌋ := Int.floor_le_floor h
    _ = c := Int.floor_intCast c
  · rename_i hq
    have hq0 : 0 ≤ -q := by linarith [not_le.mp hq]
    have : 0 ≤ ⌊-q⌋ := Int.floor_nonneg.mpr hq0
    omega

theorem neg_le_truncQ (q : ℚ) (c : ℤ) (hc : 0 ≤ c) (h : -(c : ℚ) ≤ q) :
    -c ≤ truncQ q := by
  unfold truncQ
  split
  · rename_i hq
    have : 0 ≤ ⌊q⌋ := Int.floor_nonneg.mpr hq
    omega
  · have hle : -q ≤ (c : ℚ) := by linarith
    have : ⌊-q⌋ ≤ c := by
      calc ⌊-q⌋ ≤ ⌊(c : ℚ)⌋ := Int.floor_le_floor hle
      _ = c := Int.floor_intCast c
    omega

theorem wrap16_eq_self (n : ℤ) (h1 : -32768 ≤ n) (h2 : n < 32768) :
    wrap16 n = n := by
  unfold wrap16
  omega

theorem quantizeSample_bound (x : ℚ) (h : |x| ≤ 1) :
    -32767 ≤ quantizeSample x ∧ quantizeSample x ≤ 32767 := by
  obtain ⟨hl, hr⟩ := abs_le.mp h
  have hub : x * 32767 ≤ ((32767 : ℤ) : ℚ) := by push_cast; nlinarith
  have hlb : -((32767 : ℤ) : ℚ) ≤ x * 32767 := by push_cast; nlinarith
  have ht1 : truncQ (x * 32767) ≤ 32767 := truncQ_le _ _ (by norm_num) hub
  have ht2 : -32767 ≤ truncQ (x * 32767) := neg_le_truncQ _ _ (by norm_num) hlb
  unfold quantizeSample
  rw [wrap16_eq_self _ (by omega) (by omega)]
  exact ⟨ht2, ht1⟩

theorem listMax_le (l : List ℚ) (c : ℚ) (hc : 0 ≤ c)
    (h : ∀ x ∈ l, x ≤ c) : listMax l ≤ c := by
  induction l with
  | nil => simpa [listMax] using hc
  | cons a t ih =>
    simp only [listMax, max_le_iff]
    exact ⟨h a (List.mem_cons_self a t), ih fun x hx => h x (List.mem_cons_of_mem a hx)⟩

theorem le_listMin (l : List ℚ) (c : ℚ) (hc : c ≤ 0)
    (h : ∀ x ∈ l, c ≤ x) : c ≤ listMin l := by
  induction l with
  | nil => simpa [listMin] using hc
  | cons a t ih =>
    simp only [listMin, le_min_iff]
    exact ⟨h a (List.mem_cons_self a t), ih fun x hx => h x (List.mem_cons_of_mem a hx)⟩

theorem specNormalize_of_in_range (buf : List ℚ) (h : ∀ x ∈ buf, |x| ≤ 1) :
    specNormalize buf = buf := by
  unfold specNormalize
  have hmx : listMax buf ≤ 1 :=
    listMax_le _ _ one_pos.le fun x hx => (abs_le.mp (h x hx)).2
  have hmn : -1 ≤ listMin buf :=
    le_listMin _ _ (by norm_num) fun x hx => (abs_le.mp (h x hx)).1
  rw [if_neg]
  simp only [not_or, not_lt]
  exact ⟨hmx, hmn⟩



/-! ## Concrete quantization values -/

theorem quantizeSample_one : quantizeSample 1 = 32767 := by
  unfold quantizeSample
  rw [truncQ_eval_nonneg _ 32767 (by norm_num) (by norm_num) (by norm_num)]
  decide

theorem quantizeSample_neg_one : quantizeSample (-1) = -32767 := by
  unfold quantizeSample
  rw [truncQ_eval_neg _ (-32767) (by norm_num) (by norm_num) (by norm_num)]
  decide

theorem quantizeSample_two : quantizeSample 2 = -2 := by
  unfold quantizeSample
  rw [truncQ_eval_nonneg _ 65534 (by norm_num) (by norm_num) (by norm_num)]
  decide

theorem quantizeSample_half : quantizeSample (1/2) = 16383 := by
  unfold quantizeSample
  rw [truncQ_eval_nonneg _ 16383 (by norm_num) (by norm_num) (by norm_num)]
  decide

theorem quantizeSample_quarter : quantizeSample (1/4) = 8191 := by
  unfold quantizeSample
  rw [truncQ_eval_nonneg _ 8191 (by norm_num) (by norm_num) (by norm_num)]
  decide

theorem quantizeSample_just_below_neg_one :
    quantizeSample (-(100004/100000 : ℚ)) = -32768 := by
  unfold quantizeSample
  rw [truncQ_eval_neg _ (-32768) (by norm_num) (by norm_num) (by norm_num)]
  decide

theorem specNormalize_pair : specNormalize [2, 1/2] = [1, 1/4] := by
  have hmx : listMax [2, 1/2] = 2 := by
    norm_num [listMax, max_def]
  have hmn : listMin [2, 1/2] = 0 := by
    norm_num [listMin, min_def]
  unfold specNormalize
  rw [hmx, hmn]
  norm_num

theorem postProcess_one_neg_one : postProcess [1, -1] = [32767, -32767] := by
  unfold postProcess
  rw [List.map_cons, List.map_cons, List.map_nil,
    quantizeSample_one, quantizeSample_neg_one]

/-! ## Claim C2 — range normalization before quantization -/

/-- Claim C2 (corrected): the post-processor contains no normalization
step at all. The claim as stated — samples of magnitude greater than
`1.0` get the whole buffer divided by the larger of `abs max` and
`abs min` before quantization — is refuted on the buffer `[2, 1/2]`:
the code quantizes it directly to `[-2, 16383]`, while
normalize-then-quantize would give `[32767, 8191]`. -/
theorem C2_counterexample_no_normalization :
    postProcess [2, 1/2] = [-2, 16383] ∧
    (specNormalize [2, 1/2]).map quantizeSample = [32767, 8191] ∧
    postProcess [2, 1/2] ≠ (specNormalize [2, 1/2]).map quantizeSample := by
  have e1 : postProcess [2, 1/2] = [-2, 16383] := by
    unfold postProcess
    rw [List.map_cons, List.map_cons, List.map_nil,
      quantizeSample_two, quantizeSample_half]
  have e2 : (specNormalize [2, 1/2]).map quantizeSample = [32767, 8191] := by
    rw [specNormalize_pair, List.map_cons, List.map_cons, List.map_nil,
      quantizeSample_one, quantizeSample_quarter]
  refine ⟨e1, e2, ?_⟩
  rw [e1, e2]
  decide

/-- Claim C2, amended: the post-processor applies no rescaling, so a
buffer reaches quantization bit-identical to the input; in particular,
whenever every sample already satisfies `abs x ≤ 1`, the code agrees
with the specification's normalize-then-quantize (whose normalization is
then a no-op), while out-of-range buffers are quantized un-rescaled. -/
theorem C2_postProcess_matches_spec_in_range (buf : List ℚ)
    (h : ∀ x ∈ buf, |x| ≤ 1) :
    postProcess buf = (specNormalize buf).map quantizeSample := by
  rw [specNormalize_of_in_range buf h]
  rfl

/-- Witness for `C2_postProcess_matches_spec_in_range` at the concrete
in-range buffer `[1, -1]`. -/
theorem C2_postProcess_matches_spec_in_range_witness :
    postProcess [1, -1] = (specNormalize [1, -1]).map quantizeSample :=
  C2_postProcess_matches_spec_in_range [1, -1] (by
    intro x hx
    rcases List.mem_cons.mp hx with h1 | h2
    · rw [h1]; norm_num
    · rw [List.mem_singleton.mp h2]; norm_num)

/-! ## Claim C4 — quantization bounds -/

/-- Claim C4 (corrected): without the normalization step, a sample just
below `-1.0` (here `-1.00004`) quantizes to `-32768`, outside the range
`[-32767, 32767]` the claim asserts for every input buffer. -/
theorem C4_counterexample_out_of_range_sample :
    postProcess [-(100004/100000 : ℚ)] = [-32768] ∧
    ((-32768 : ℤ) < -32767) := by
  constructor
  · unfold postProcess
    rw [List.map_cons, List.map_nil, quantizeSample_just_below_neg_one]
  · decide

/-- Claim C4, amended: for every buffer whose samples all have magnitude
at most `1`, every output PCM sample lies in `[-32767, 32767]`; and the
two-sample buffer `[1.0, -1.0]` maps exactly to `[32767, -32767]`. -/
theorem C4_quantization_bounds_in_range (buf : List ℚ)
    (h : ∀ x ∈ buf, |x| ≤ 1) :
    (∀ s ∈ postProcess buf, -32767 ≤ s ∧ s ≤ 32767) ∧
    postProcess [1, -1] = [32767, -32767] := by
  refine ⟨?_, postProcess_one_neg_one⟩
  intro s hs
  obtain ⟨x, hx, rfl⟩ := List.mem_map.mp hs
  exact quantizeSample_bound x (h x hx)

/-- Witness for `C4_quantization_bounds_in_range` at the concrete buffer
`[1/2]`, whose single PCM sample `16383` lies inside the bounds. -/
theorem C4_quantization_bounds_in_range_witness :
    (-32767 ≤ quantizeSample (1/2) ∧ quantizeSample (1/2) ≤ 32767) ∧
    postProcess [1, -1] = [32767, -32767] := by
  have h := C4_quantization_bounds_in_range [1/2] (by
    intro x hx
    rw [List.mem_singleton.mp hx]
    norm_num [abs_le])
  exact ⟨h.1 (quantizeSample (1/2)) (List.mem_map.mpr ⟨1/2, List.mem_singleton.mpr rfl, rfl⟩), h.2⟩

/-! ## Claim C3 — adapter variant resolution order -/

/-- Claim C3 (corrected): the adapter never consults an `audio`
attribute. A result carrying an `audio` attribute holding `[1]` but no
`numpy` conversion is normalized by the code to its raw value `[]`, not
to `[1]` as attribute-first resolution would require. -/
theorem C3_counterexample_audio_attr_ignored :
    codeAdapt ⟨none, some [1], none, []⟩ = [] ∧
    specAdapt ⟨none, some [1], none, []⟩ = [1] ∧
    codeAdapt ⟨none, some [1], none, []⟩ ≠ specAdapt ⟨none, some [1], none, []⟩ := by
  refine ⟨rfl, rfl, ?_⟩
  intro h
  exact List.noConfusion h

/-- Claim C3, amended: the adapter resolves the backend result by first
trying a tensor-style `numpy()` conversion and otherwise treating the raw
result itself as the waveform; any `audio` attribute or mapping key
`audio` on the result is ignored. -/
theorem C3_adapter_numpy_then_raw (r : RawResult) (a k : Option (List ℚ)) :
    codeAdapt { r with audioAttr := a, audioKey := k } = codeAdapt r ∧
    codeAdapt r = r.numpyFn.getD r.rawValue := by
  cases hnp : r.numpyFn <;> simp [codeAdapt, hnp]

/-! ## Claim C5 — prompt construction -/

/-- Claim C5 (confirmed): the generation prompt is
`tags ++ "\n\n" ++ lyrics` when `tags` is non-empty, and `lyrics`
verbatim otherwise, with both fields empty giving the empty prompt; and
the prompt the handler passes to the backend is exactly the resolved
prompt. -/
theorem C5_prompt_construction (inp : JobInput) :
    (inp.tags.getD "" ≠ "" →
      (resolve inp).prompt = inp.tags.getD "" ++ "\n\n" ++ inp.lyrics.getD "") ∧
    (inp.tags.getD "" = "" → (resolve inp).prompt = inp.lyrics.getD "") ∧
    (inp.tags.getD "" = "" → inp.lyrics.getD "" = "" → (resolve inp).prompt = "") ∧
    (∀ env pipe jobId st rng inv,
      (handler env pipe jobId inp st rng).invocation = some inv →
      inv.prompt = (resolve inp).prompt) := by
  refine ⟨?_, ?_, ?_, ?_⟩
  · intro h
    simp [resolve, h]
  · intro h
    simp [resolve, h]
  · intro h hl
    simp [resolve, h, hl]
  · intro env pipe jobId st rng inv hinv
    unfold handler at hinv
    rcases hini : init_pipeline env st with ⟨r, st1⟩
    rw [hini] at hinv
    cases r with
    | error msg => simp at hinv
    | ok h =>
      simp only at hinv
      rcases hp : pipe (match (resolve inp).seed with
        | some s => manual_seed s rng
        | none => rng)
        { prompt := (resolve inp).prompt, duration := (resolve inp).duration
          num_inference_steps := (resolve inp).inference_steps
          guidance_scale := (resolve inp).guidance_scale } with ⟨pr, rng2⟩
      rw [hp] at hinv
      cases pr <;>
        · simp only [Option.some.injEq] at hinv
          rw [← hinv]

/-- Witness for `C5_prompt_construction` on the request
`{tags: "warm, acoustic", lyrics: "[verse]"}`. -/
theorem C5_prompt_construction_witness :
    (resolve ⟨some "warm, acoustic", some "[verse]", none, none, none, none⟩).prompt =
      "warm, acoustic\n\n[verse]" := by
  have h := (C5_prompt_construction
    ⟨some "warm, acoustic", some "[verse]", none, none, none, none⟩).1 (by decide)
  rw [h]
  rfl

/-! ## Pipeline lifecycle lemmas -/

theorem init_pipeline_cached (env : Env) (st : PState) (h : ℕ)
    (hs : st.slot = some h) : init_pipeline env st = (.ok h, st) := by
  unfold init_pipeline
  rw [hs]

theorem initCalls_cached (env : Env) (N : ℕ) (st : PState) (h : ℕ)
    (hs : st.slot = some h) :
    initCalls env N st = (List.replicate N (Except.ok h), st) := by
  induction N with
  | zero => rfl
  | succ n ih =>
    simp [initCalls, init_pipeline_cached env st h hs, ih, List.replicate_succ]

theorem init_pipeline_fresh (env : Env) (st : PState)
    (hslot : st.slot = none) (henv : envConstructs env) :
    ∃ st1, init_pipeline env st = (.ok st.totalBuilds, st1) ∧
      st1.slot = some st.totalBuilds ∧
      st1.totalBuilds = st.totalBuilds + 1 := by
  rcases env with ⟨p, a⟩
  cases p <;> cases a <;>
    simp_all [envConstructs, init_pipeline, PState.totalBuilds] <;>
    omega

/-! ## Claim C6 — pipeline singleton -/

/-- Claim C6 (confirmed): starting from an unconstructed module state,
when some construction strategy resolves, calling `init_pipeline` `N ≥ 1`
times returns the very same handle every time, and the construction
side effects happen exactly once across all `N` calls. -/
theorem C6_singleton_get_or_create (env : Env) (st : PState) (N : ℕ)
    (henv : envConstructs env) (hslot : st.slot = none) (hN : 1 ≤ N) :
    ∃ h, (initCalls env N st).1 = List.replicate N (Except.ok h) ∧
      (initCalls env N st).2.totalBuilds = st.totalBuilds + 1 := by
  obtain ⟨n, rfl⟩ : ∃ n, N = n + 1 := ⟨N - 1, by omega⟩
  obtain ⟨st1, hini, hs1, hb1⟩ := init_pipeline_fresh env st hslot henv
  refine ⟨st.totalBuilds, ?_, ?_⟩ <;>
    simp [initCalls, hini, initCalls_cached env n st1 st.totalBuilds hs1, hb1,
      List.replicate_succ]

/-- Witness for `C6_singleton_get_or_create`: three calls in a fresh
process with a working primary import return the same handle `0` each
time, with one construction in total. -/
theorem C6_singleton_get_or_create_witness :
    ∃ h, (initCalls ⟨.ok, .ok⟩ 3 initialState).1 = List.replicate 3 (Except.ok h) ∧
      (initCalls ⟨.ok, .ok⟩ 3 initialState).2.totalBuilds = initialState.totalBuilds + 1 :=
  C6_singleton_get_or_create ⟨.ok, .ok⟩ initialState 3 trivial rfl (by norm_num)

/-! ## Claim C7 — ordered construction strategies -/

/-- Claim C7 (confirmed): on an unconstructed state, the primary strategy
is used whenever its import resolves and constructs (the alternate is not
touched); the alternate strategy is used exactly when the primary import
fails and the alternate resolves and constructs; and when neither import
resolves, `init_pipeline` raises instead of returning a handle. -/
theorem C7_construction_strategy_order (env : Env) (st : PState)
    (hslot : st.slot = none) :
    (env.primary = .ok →
      init_pipeline env st =
        (.ok st.totalBuilds,
          { st with slot := some st.totalBuilds,
                    primaryBuilds := st.primaryBuilds + 1 })) ∧
    (∀ m, env.primary = .importError m → env.alternate = .ok →
      init_pipeline env st =
        (.ok st.totalBuilds,
          { st with slot := some st.totalBuilds,
                    altBuilds := st.altBuilds + 1 })) ∧
    (∀ m m2, env.primary = .importError m → env.alternate = .importError m2 →
      (init_pipeline env st).1 = .error m2) := by
  refine ⟨?_, ?_, ?_⟩
  · intro hp
    simp [init_pipeline, hslot, hp, PState.totalBuilds]
  · intro m hp ha
    simp [init_pipeline, hslot, hp, ha, PState.totalBuilds]
  · intro m m2 hp ha
    simp [init_pipeline, hslot, hp, ha]

/-- Witness for `C7_construction_strategy_order`: with the primary
module missing and the alternate working, a fresh process constructs via
the alternate strategy. -/
theorem C7_construction_strategy_order_witness :
    init_pipeline ⟨.importError "no acestep.pipeline", .ok⟩ initialState =
      (.ok 0, { slot := some 0, primaryBuilds := 0, altBuilds := 1 }) :=
  (C7_construction_strategy_order ⟨.importError "no acestep.pipeline", .ok⟩
    initialState rfl).2.1 "no acestep.pipeline" rfl rfl

/-! ## Claim C9 — failed construction leaves the slot unset -/

/-- Claim C9 (confirmed): when `init_pipeline` raises out of an
unconstructed state, the module state is untouched — in particular the
singleton slot stays `None`, no partially constructed handle is cached —
and a later call against a working import environment performs the
construction then. -/
theorem C9_failed_construction_not_cached (env : Env) (st : PState)
    (m : String) (st1 : PState) (hslot : st.slot = none)
    (hfail : init_pipeline env st = (.error m, st1)) :
    st1 = st ∧ st1.slot = none ∧
    ∀ env2 : Env, env2.primary = .ok →
      init_pipeline env2 st1 =
        (.ok st1.totalBuilds,
          { st1 with slot := some st1.totalBuilds,
                     primaryBuilds := st1.primaryBuilds + 1 }) := by
  have hst : st1 = st := by
    rcases env with ⟨p, a⟩
    cases p <;> cases a <;> simp_all [init_pipeline]
  subst hst
  refine ⟨rfl, hslot, ?_⟩
  intro env2 h2
  simp [init_pipeline, hslot, h2, PState.totalBuilds]

/-- Witness for `C9_failed_construction_not_cached`: after both imports
fail in a fresh process, the state is unchanged and a retry against a
working primary import constructs handle `0`. -/
theorem C9_failed_construction_not_cached_witness :
    initialState = initialState ∧ initialState.slot = none ∧
    ∀ env2 : Env, env2.primary = .ok →
      init_pipeline env2 initialState =
        (.ok initialState.totalBuilds,
          { initialState with slot := some initialState.totalBuilds,
                              primaryBuilds := initialState.primaryBuilds + 1 }) :=
  C9_failed_construction_not_cached ⟨.importError "e1", .importError "e2"⟩
    initialState "e2" initialState rfl rfl

/-! ## Concrete fixtures for the handler-level claims -/

/-- A backend whose generation call raises. -/
def pipeRaise : ℤ → Invocation → PipeResult × ℤ :=
  fun rng _ => (.raises "boom", rng)

/-- A backend returning an empty raw waveform and leaving the RNG
alone. -/
def pipeEmpty : ℤ → Invocation → PipeResult × ℤ :=
  fun rng _ => (.returns ⟨none, none, none, []⟩, rng)

/-- A job request with every field absent. -/
def inpEmpty : JobInput :=
  ⟨none, none, none, none, none, none⟩

/-- A job request carrying only a seed. -/
def inpSeeded (s : ℤ) : JobInput :=
  ⟨none, none, none, none, none, some s⟩

/-! ## Claim C1 — error classification at the handler boundary -/

/-- Every handler call either propagates an exception or returns the
success shape: the failure response shape is unreachable in the code. -/
theorem handler_outcome_shape (env : Env) (pipe : ℤ → Invocation → PipeResult × ℤ)
    (jobId : String) (inp : JobInput) (st : PState) (rng : ℤ) :
    (∃ msg, (handler env pipe jobId inp st rng).outcome = .raises msg) ∨
    (∃ resp, (handler env pipe jobId inp st rng).outcome = .returns (.success resp)) := by
  unfold handler
  rcases hini : init_pipeline env st with ⟨r, st1⟩
  cases r with
  | error msg => exact Or.inl ⟨msg, rfl⟩
  | ok h =>
    simp only
    rcases hp : pipe (match (resolve inp).seed with
      | some s => manual_seed s rng
      | none => rng)
      { prompt := (resolve inp).prompt, duration := (resolve inp).duration
        num_inference_steps := (resolve inp).inference_steps
        guidance_scale := (resolve inp).guidance_scale } with ⟨pr, rng2⟩
    cases pr with
    | raises msg => exact Or.inl ⟨msg, rfl⟩
    | returns raw => exact Or.inr ⟨_, rfl⟩

/-- Claim C1 (corrected): with a working pipeline and a backend that
raises, the exception propagates out of the handler (`raise e` at line
159) instead of being converted to the `{error: message}` failure
response. -/
theorem C1_counterexample_reraise_not_failure_response :
    (handler ⟨.ok, .ok⟩ pipeRaise "job-1" inpEmpty initialState 0).outcome =
      .raises "boom" ∧
    (handler ⟨.ok, .ok⟩ pipeRaise "job-1" inpEmpty initialState 0).outcome ≠
      .returns (.failure "boom") := by
  refine ⟨rfl, ?_⟩
  intro hcontra
  exact HandlerOutcome.noConfusion hcontra

/-- Claim C1, amended: exceptions raised during pipeline initialization
or backend invocation are caught, logged, and unconditionally re-raised
out of the handler with their original message; the handler never
returns the `{error: message}` failure response for any job. -/
theorem C1_exceptions_propagate (env : Env) (pipe : ℤ → Invocation → PipeResult × ℤ)
    (jobId : String) (inp : JobInput) (st : PState) (rng : ℤ) :
    (∀ msg, (handler env pipe jobId inp st rng).outcome ≠ .returns (.failure msg)) ∧
    (∀ msg st1, init_pipeline env st = (.error msg, st1) →
      (handler env pipe jobId inp st rng).outcome = .raises msg) ∧
    (∀ msg h st1, init_pipeline env st = (.ok h, st1) →
      (∀ r inv, (pipe r inv).1 = .raises msg) →
      (handler env pipe jobId inp st rng).outcome = .raises msg) := by
  refine ⟨?_, ?_, ?_⟩
  · intro msg hcontra
    rcases handler_outcome_shape env pipe jobId inp st rng with ⟨m, hm⟩ | ⟨resp, hr⟩
    · rw [hm] at hcontra
      exact HandlerOutcome.noConfusion hcontra
    · rw [hr] at hcontra
      simp at hcontra
  · intro msg st1 hini
    unfold handler
    rw [hini]
  · intro msg h st1 hini hraise
    unfold handler
    rw [hini]
    simp only
    rcases hp : pipe (match (resolve inp).seed with
      | some s => manual_seed s rng
      | none => rng)
      { prompt := (resolve inp).prompt, duration := (resolve inp).duration
        num_inference_steps := (resolve inp).inference_steps
        guidance_scale := (resolve inp).guidance_scale } with ⟨pr, rng2⟩
    have hpr : pr = .raises msg := by
      have := hraise (match (resolve inp).seed with
        | some s => manual_seed s rng
        | none => rng)
        { prompt := (resolve inp).prompt, duration := (resolve inp).duration
          num_inference_steps := (resolve inp).inference_steps
          guidance_scale := (resolve inp).guidance_scale }
      rw [hp] at this
      exact this
    subst hpr
    rfl

/-- Witness for `C1_exceptions_propagate`: when both import strategies
fail, the handler propagates the second import failure. -/
theorem C1_exceptions_propagate_witness :
    (handler ⟨.importError "e1", .importError "e2"⟩ pipeRaise "job-1" inpEmpty
      initialState 0).outcome = .raises "e2" :=
  (C1_exceptions_propagate ⟨.importError "e1", .importError "e2"⟩ pipeRaise
    "job-1" inpEmpty initialState 0).2.1 "e2" initialState rfl

/-! ## Claim C10 — response duration copied from the request -/

/-- Claim C10 (confirmed): on success, the `duration` field of the
response is the resolved request duration — the requested value, or the
default `180` when absent — whatever waveform the backend produced
(the backend `pipe` is universally quantified). -/
theorem C10_response_duration_from_request (env : Env)
    (pipe : ℤ → Invocation → PipeResult × ℤ) (jobId : String) (inp : JobInput)
    (st : PState) (rng : ℤ) (resp : SuccessResponse)
    (hout : (handler env pipe jobId inp st rng).outcome = .returns (.success resp)) :
    resp.duration = inp.duration.getD 180 := by
  unfold handler at hout
  rcases hini : init_pipeline env st with ⟨r, st1⟩
  rw [hini] at hout
  cases r with
  | error msg => simp at hout
  | ok h =>
    simp only at hout
    rcases hp : pipe (match (resolve inp).seed with
      | some s => manual_seed s rng
      | none => rng)
      { prompt := (resolve inp).prompt, duration := (resolve inp).duration
        num_inference_steps := (resolve inp).inference_steps
        guidance_scale := (resolve inp).guidance_scale } with ⟨pr, rng2⟩
    rw [hp] at hout
    cases pr with
    | raises msg => simp at hout
    | returns raw =>
      simp only [HandlerOutcome.returns.injEq, JobResponse.success.injEq] at hout
      rw [← hout]
      rfl

/-- Witness for `C10_response_duration_from_request`: a request without
a duration gets `180` back, whatever the backend returned. -/
theorem C10_response_duration_from_request_witness :
    ({ audio_base64 := encodeWavBase64 44100 [], duration := 180
       filename := "job-1.wav", sample_rate := 44100 } : SuccessResponse).duration =
      inpEmpty.duration.getD 180 :=
  C10_response_duration_from_request ⟨.ok, .ok⟩ pipeEmpty "job-1" inpEmpty
    initialState 0 _ rfl

/-! ## Claim C8 — the seed is applied on every seeded job -/

theorem handler_rngAtInvocation (env : Env) (pipe : ℤ → Invocation → PipeResult × ℤ)
    (jobId : String) (inp : JobInput) (st : PState) (rng : ℤ)
    (henv : env.primary = .ok) :
    (handler env pipe jobId inp st rng).rngAtInvocation =
      some (match inp.seed with
        | some s => manual_seed s rng
        | none => rng) := by
  have hini : ∃ h st1, init_pipeline env st = (.ok h, st1) := by
    cases hs : st.slot with
    | some h => exact ⟨h, st, init_pipeline_cached env st h hs⟩
    | none =>
      have henv2 : envConstructs env := by
        rcases env with ⟨p, a⟩
        cases p <;> cases a <;> simp_all [envConstructs]
      obtain ⟨st1, h1, _, _⟩ := init_pipeline_fresh env st hs henv2
      exact ⟨st.totalBuilds, st1, h1⟩
  obtain ⟨h, st1, hini⟩ := hini
  unfold handler
  rw [hini]
  simp only
  rcases hp : pipe (match (resolve inp).seed with
    | some s => manual_seed s rng
    | none => rng)
    { prompt := (resolve inp).prompt, duration := (resolve inp).duration
      num_inference_steps := (resolve inp).inference_steps
      guidance_scale := (resolve inp).guidance_scale } with ⟨pr, rng2⟩
  cases pr <;> rfl

/-- The torch RNG state entering the `i`-th job of a job sequence. -/
def rngBefore (env : Env) (pipe : ℤ → Invocation → PipeResult × ℤ) :
    List (String × JobInput) → ℕ → PState → ℤ → ℤ
  | [] => fun _ _ rng => rng
  | (jobId, inp) :: rest => fun i st rng =>
    match i with
    | 0 => rng
    | n + 1 =>
      rngBefore env pipe rest n (handler env pipe jobId inp st rng).state
        (handler env pipe jobId inp st rng).rngFinal

theorem rngBefore_cons_zero (env : Env) (pipe : ℤ → Invocation → PipeResult × ℤ)
    (hd : String × JobInput) (tl : List (String × JobInput)) (st : PState)
    (rng : ℤ) : rngBefore env pipe (hd :: tl) 0 st rng = rng := by
  rcases hd with ⟨jobId, inp⟩
  rfl

theorem rngBefore_cons_succ (env : Env) (pipe : ℤ → Invocation → PipeResult × ℤ)
    (jobId : String) (inp : JobInput) (tl : List (String × JobInput)) (n : ℕ)
    (st : PState) (rng : ℤ) :
    rngBefore env pipe ((jobId, inp) :: tl) (n + 1) st rng =
      rngBefore env pipe tl n (handler env pipe jobId inp st rng).state
        (handler env pipe jobId inp st rng).rngFinal := rfl

/-- Claim C8 (confirmed): in any job sequence handled by one worker with
a working primary import, every job carrying a seed has
`torch.manual_seed(seed)` in force at its backend invocation — whatever
its position in the sequence — while a job without a seed invokes the
backend with the RNG state it inherited, untouched by the adapter. -/
theorem C8_seed_applied_per_job (env : Env)
    (pipe : ℤ → Invocation → PipeResult × ℤ) (st : PState) (rng : ℤ)
    (jobs : List (String × JobInput)) (henv : env.primary = .ok) (i : ℕ)
    (jobId : String) (inp : JobInput) (hJob : jobs[i]? = some (jobId, inp)) :
    ∃ run, (runJobs env pipe st rng jobs)[i]? = some run ∧
      run.rngAtInvocation = some (match inp.seed with
        | some s => s
        | none => rngBefore env pipe jobs i st rng) := by
  induction jobs generalizing st rng i with
  | nil => simp at hJob
  | cons hd tl ih =>
    rcases hd with ⟨jid0, inp0⟩
    cases i with
    | zero =>
      obtain ⟨hj, hi⟩ : jid0 = jobId ∧ inp0 = inp := by
        simpa using hJob
      refine ⟨handler env pipe jid0 inp0 st rng, by simp [runJobs], ?_⟩
      rw [handler_rngAtInvocation env pipe jid0 inp0 st rng henv, hi,
        rngBefore_cons_zero]
      cases inp.seed <;> rfl
    | succ n =>
      simp only [List.getElem?_cons_succ] at hJob
      obtain ⟨run, hr1, hr2⟩ :=
        ih (handler env pipe jid0 inp0 st rng).state
          (handler env pipe jid0 inp0 st rng).rngFinal n hJob
      refine ⟨run, ?_, ?_⟩
      · simpa [runJobs] using hr1
      · rw [hr2, rngBefore_cons_succ]

/-- Witness for `C8_seed_applied_per_job`: in a two-job sequence where
the second job carries seed `9`, the second invocation runs with RNG
state `9`. -/
theorem C8_seed_applied_per_job_witness :
    ∃ run, (runJobs ⟨.ok, .ok⟩ pipeEmpty initialState 0
        [("a", inpSeeded 7), ("b", inpSeeded 9)])[1]? = some run ∧
      run.rngAtInvocation = some 9 :=
  C8_seed_applied_per_job ⟨.ok, .ok⟩ pipeEmpty initialState 0
    [("a", inpSeeded 7), ("b", inpSeeded 9)] rfl 1 "b" (inpSeeded 9) rfl

end ACEStep
